import Mathlib

/-!
Verification of the TEST-ENGINE monitoring and analytics code.

Part 1 embeds the background job `check_services_health` (src/main.py,
lines 119-195) and the cached-summary reader `get_analytics_summary`
(src/core/analytics_aggregator.py, lines 102-137).  Time is modelled as
`Int` microseconds (the resolution of Python `datetime`/`timedelta`);
`datetime.now()` becomes an explicit `now : Int` parameter, and library
effects (HTTP HEAD, `strptime`, `fromisoformat`) become function-valued
parameters returning `Except`/`Option`.

Part 2 embeds `aggregate_analytics` (src/core/analytics_aggregator.py,
lines 8-100) over a calendar datetime model, since it compares event
timestamps against `datetime(now.year, now.month, 1)` and
`datetime(now.year, 1, 1)`.
-/

/-- Microseconds in one minute. -/
def usPerMinute : Int := 60 * 1000000

/-- Microseconds in one hour. -/
def usPerHour : Int := 3600 * 1000000

/-- Microseconds in one day. -/
def usPerDay : Int := 86400 * 1000000

/-- A document of the `messages` collection, as written by the monitor
(src/main.py lines 147-155 and 184-192).  The `timestamp` field is a
datetime or absent. -/
structure AlertMessage where
  name : String
  subject : String
  message : String
  timestamp : Option Int
  is_read : Bool
  is_system : Bool
  alert_type : String
deriving DecidableEq

/-- The message document inserted by the monitor for a fresh alert
(src/main.py lines 147-155, 184-192): `name='System Monitor'`,
`timestamp=datetime.now()`, `is_read=False`, `is_system=True`. -/
def mkAlertMessage (subject msg : String) (now : Int) (alert_type : String) :
    AlertMessage :=
  ⟨"System Monitor", subject, msg, some now, false, true, alert_type⟩

/-- Deduplicated alert creation, the block shared by both alert sites of
`check_services_health` (src/main.py lines 139-155 and 174-192): fetch the
messages whose `subject` equals the candidate subject, mark `already_sent`
when any of them carries a timestamp strictly later than `now - 24h`, and
otherwise send one push notification and insert one new message.  Returns
the messages collection after the step and whether a push was sent. -/
def raiseDedupAlert (msgs : List AlertMessage) (now : Int)
    (subject msg alert_type : String) : List AlertMessage × Bool :=
  let threshold := now - 24 * usPerHour
  let recent_msgs := msgs.filter (fun m => m.subject = subject)
  let already_sent := recent_msgs.any (fun m =>
    match m.timestamp with
    | some t => decide (threshold < t)
    | none => false)
  if already_sent then (msgs, false)
  else (msgs ++ [mkAlertMessage subject msg now alert_type], true)

/-- A document of the `vault` collection with `category == 'deployment'`
(src/main.py lines 125-134). -/
structure VaultRecord where
  url : String
  name : Option String
  last_status : Option String
  last_check : Option Int
deriving DecidableEq

/-- URL normalisation of src/main.py line 128:
`if not url.startswith('http'): url = 'https://' + url`. -/
def resolveUrl (url : String) : String :=
  if url.startsWith "http" then url else "https://" ++ url

/-- Status classification of src/main.py lines 129-132: `online` when the
HEAD request returns a status code `< 400`, `offline` on an error status
or on any exception (timeouts included).  The outcome of
`requests.head(url, timeout=10)` is the `Except`-valued argument. -/
def deploymentStatus (resp : Except Unit Nat) : String :=
  match resp with
  | .ok code => if code < 400 then "online" else "offline"
  | .error _ => "offline"

/-- One iteration of the deployment loop of `check_services_health`
(src/main.py lines 125-155) for one vault record: classify the status,
write `{last_check: now, last_status: status}` back onto the record, and
when offline run the dedup-alert block with subject
`f"🚨 Outage: {data.get('name')}"` and message `f"Unreachable: {url}"`.
Returns the updated record, the messages collection and the push flag. -/
def checkDeploymentRecord (rec : VaultRecord) (head : String → Except Unit Nat)
    (now : Int) (msgs : List AlertMessage) :
    VaultRecord × List AlertMessage × Bool :=
  let url := resolveUrl rec.url
  let status := deploymentStatus (head url)
  let rec' := { rec with last_check := some now, last_status := some status }
  if status = "offline" then
    let subject := "🚨 Outage: " ++ rec.name.getD "None"
    let msg := "Unreachable: " ++ url
    let (msgs', pushed) := raiseDedupAlert msgs now subject msg "critical"
    (rec', msgs', pushed)
  else (rec', msgs, false)

/-- Days-remaining computation of src/main.py line 166:
`days = (expiry_date - datetime.now()).days + 1`.  Python `timedelta.days`
is the floor of the total duration in days; on `Int` microseconds with the
positive divisor `usPerDay`, Euclidean division is that floor. -/
def daysRemaining (expiry now : Int) : Int :=
  (expiry - now).ediv usPerDay + 1

/-- Alert decision of src/main.py lines 169-170: no alert above 30 days,
`critical` at 7 days or fewer, `warning` otherwise. -/
def domainAlertType (days : Int) : Option String :=
  if days ≤ 30 then some (if days ≤ 7 then "critical" else "warning")
  else none

/-- One iteration of the domain loop of `check_services_health`
(src/main.py lines 159-195) for one `domains` record: skip when
`expiry_date` is absent or empty (falsy), parse it with
`strptime(expiry_str, '%Y-%m-%d')` (a parse failure is caught and
ignored), compute `daysRemaining`, and when an alert is due run the
dedup-alert block with the subject of line 171.  `parseDate` stands for
`strptime` and returns the midnight instant of the parsed date. -/
def checkDomainRecord (expiry_str0 : Option String) (domain_name : Option String)
    (parseDate : String → Option Int) (now : Int) (msgs : List AlertMessage) :
    List AlertMessage × Bool :=
  match expiry_str0 with
  | none => (msgs, false)
  | some expiry_str =>
    if expiry_str = "" then (msgs, false)
    else
      match parseDate expiry_str with
      | none => (msgs, false)
      | some expiry_date =>
        let days := daysRemaining expiry_date now
        match domainAlertType days with
        | none => (msgs, false)
        | some alert_type =>
          let subject := (if days ≤ 7 then "🚨" else "📅") ++ " Domain Alert: "
            ++ domain_name.getD "None"
          let msg := "Expires in " ++ toString days ++ " days (" ++ expiry_str ++ ")."
          raiseDedupAlert msgs now subject msg alert_type

/-- A stored timestamp field as `get_analytics_summary` may find it:
absent, a datetime, or a string from a restored backup
(src/core/analytics_aggregator.py lines 115-122). -/
inductive StoredTime where
  | missing : StoredTime
  | dt : Int → StoredTime
  | str : String → StoredTime
deriving DecidableEq

/-- Normalisation of the `last_updated` field (src/core/analytics_aggregator.py
lines 115-127): a string is parsed with `datetime.fromisoformat` (here the
`fromiso` argument), an unparsable string becomes `None`, and timezone
stripping is the identity on the naive model. -/
def parseStoredTime (fromiso : String → Option Int) : StoredTime → Option Int
  | .missing => none
  | .dt t => some t
  | .str s => fromiso s

/-- Embedding of `get_analytics_summary` (src/core/analytics_aggregator.py
lines 102-137).  `α` is the type of summary documents; `readDoc` is the
outcome of fetching and converting the cached document (an `Except.error`
models an exception inside the `try`, `Except.ok none` a non-existent
document); `lastUpdatedOf` reads the `last_updated` field; `aggRes` is the
value `aggregate_analytics()` would return.  The cached summary is served
exactly when its age is strictly under 5 minutes. -/
def get_analytics_summary {α : Type} (dbPresent : Bool)
    (readDoc : Except String (Option α)) (lastUpdatedOf : α → StoredTime)
    (fromiso : String → Option Int) (now : Int) (aggRes : Option α) : Option α :=
  if dbPresent = false then none
  else
    match readDoc with
    | .error _ => aggRes
    | .ok none => aggRes
    | .ok (some summary) =>
      match parseStoredTime fromiso (lastUpdatedOf summary) with
      | some last_updated =>
        if now - last_updated < 5 * usPerMinute then some summary else aggRes
      | none => aggRes

/-!
Part 2: the analytics aggregator (src/core/analytics_aggregator.py,
lines 8-100).
-/

/-- A naive Python `datetime`: year, month, day, hour, minute, second,
microsecond.  Comparisons strip timezones first in the source (line 51),
so the naive model suffices. -/
structure PyDateTime where
  year : Int
  month : Nat
  day : Nat
  hour : Nat
  minute : Nat
  second : Nat
  micro : Nat
deriving DecidableEq

/-- Lexicographic field-by-field comparison, the order Python uses on
naive `datetime` values. -/
def PyDateTime.leB (a b : PyDateTime) : Bool :=
  if a.year ≠ b.year then decide (a.year < b.year)
  else if a.month ≠ b.month then decide (a.month < b.month)
  else if a.day ≠ b.day then decide (a.day < b.day)
  else if a.hour ≠ b.hour then decide (a.hour < b.hour)
  else if a.minute ≠ b.minute then decide (a.minute < b.minute)
  else if a.second ≠ b.second then decide (a.second < b.second)
  else decide (a.micro ≤ b.micro)

/-- Propositional form of the lexicographic datetime order. -/
def PyDateTime.lexLe (a b : PyDateTime) : Prop :=
  a.year < b.year ∨ (a.year = b.year ∧ (a.month < b.month ∨ (a.month = b.month ∧
  (a.day < b.day ∨ (a.day = b.day ∧ (a.hour < b.hour ∨ (a.hour = b.hour ∧
  (a.minute < b.minute ∨ (a.minute = b.minute ∧ (a.second < b.second ∨
  (a.second = b.second ∧ a.micro ≤ b.micro)))))))))))

/-- Agreement of the two forms of the datetime order. -/
theorem PyDateTime.leB_iff {a b : PyDateTime} : a.leB b = true ↔ a.lexLe b := by
  unfold PyDateTime.leB PyDateTime.lexLe
  split_ifs <;> simp only [decide_eq_true_eq] <;> omega

/-- Transitivity of the datetime order. -/
theorem PyDateTime.leB_trans {a b c : PyDateTime}
    (hab : a.leB b = true) (hbc : b.leB c = true) : a.leB c = true := by
  rw [PyDateTime.leB_iff] at *
  unfold PyDateTime.lexLe at *
  omega

/-- Timestamp value stored on an analytics event: absent, a datetime, or a
string from a restored backup (src/core/analytics_aggregator.py
lines 42-47). -/
inductive TSVal where
  | missing : TSVal
  | dt : PyDateTime → TSVal
  | str : String → TSVal
deriving DecidableEq

/-- A document of the `analytics` collection, as read on lines 36-40 of
src/core/analytics_aggregator.py. -/
structure ViewEvent where
  timestamp : TSVal
  item_type : Option String
  item_id : Option String
  title : Option String
deriving DecidableEq

/-- Title extraction of line 40: `data.get('title', 'Unknown')`. -/
def titleOf (e : ViewEvent) : String := e.title.getD "Unknown"

/-- Python truthiness of the `item_id` value (lines 61 and 64): `None` and
the empty string are falsy. -/
def idTruthy : Option String → Bool
  | none => false
  | some s => s ≠ ""

/-- Key under which a qualifying event is accumulated (its `item_id`; the
default is never used on qualifying events since their id is truthy). -/
def keyOf (e : ViewEvent) : String := e.item_id.getD ""

/-- Timestamp normalisation of lines 42-51: a string timestamp is parsed
with `datetime.fromisoformat` (the `fromiso` argument), an unparsable
string becomes `None`, and timezone stripping is the identity on the
naive model. -/
def parseTS (fromiso : String → Option PyDateTime) : TSVal → Option PyDateTime
  | .missing => none
  | .dt t => some t
  | .str s => fromiso s

/-- One `defaultdict` update of lines 62-63 (and 65-66): increment the
count of key `k` and overwrite its title, creating the entry with count 1
at the end of the dict when the key is new (Python dicts keep insertion
order). -/
def bumpItem : List (String × Nat × String) → String → String →
    List (String × Nat × String)
  | [], k, t => [(k, 1, t)]
  | (k', c, t') :: rest, k, t =>
    if k' = k then (k', c + 1, t) :: rest
    else (k', c, t') :: bumpItem rest k t

/-- Loop state of the aggregation loop (lines 22-27): the monthly and
yearly counters and the two `defaultdict`s, each an insertion-ordered
association list `item_id ↦ (count, title)`. -/
structure AggState where
  monthly : Nat
  yearly : Nat
  blogs : List (String × Nat × String)
  projects : List (String × Nat × String)
deriving DecidableEq

/-- Predicate of line 61: `item_type == 'blog' and item_id`. -/
def isBlogEvent (e : ViewEvent) : Bool :=
  e.item_type = some "blog" && idTruthy e.item_id

/-- Predicate of line 64: `item_type == 'project' and item_id` (reached
only when line 61 fails, but an event never has both types). -/
def isProjectEvent (e : ViewEvent) : Bool :=
  e.item_type = some "project" && idTruthy e.item_id

/-- Loop body of lines 35-66 for one event: parse the timestamp, bump the
monthly/yearly counters against the thresholds, then accumulate the event
under its item id in the matching `defaultdict`. -/
def aggStep (fromiso : String → Option PyDateTime)
    (month_start year_start : PyDateTime) (st : AggState) (e : ViewEvent) :
    AggState :=
  let ts := parseTS fromiso e.timestamp
  let st1 :=
    match ts with
    | some t =>
      { st with
        monthly := st.monthly + (if month_start.leB t then 1 else 0)
        yearly := st.yearly + (if year_start.leB t then 1 else 0) }
    | none => st
  if isBlogEvent e then
    { st1 with blogs := bumpItem st1.blogs (keyOf e) (titleOf e) }
  else if isProjectEvent e then
    { st1 with projects := bumpItem st1.projects (keyOf e) (titleOf e) }
  else st1

/-- Month threshold of line 31: `datetime(now.year, now.month, 1)`. -/
def monthStart (now : PyDateTime) : PyDateTime :=
  ⟨now.year, now.month, 1, 0, 0, 0, 0⟩

/-- Year threshold of line 32: `datetime(now.year, 1, 1)`. -/
def yearStart (now : PyDateTime) : PyDateTime :=
  ⟨now.year, 1, 1, 0, 0, 0, 0⟩

/-- State after the aggregation loop over all fetched events. -/
def aggLoop (fromiso : String → Option PyDateTime) (now : PyDateTime)
    (events : List ViewEvent) : AggState :=
  events.foldl (aggStep fromiso (monthStart now) (yearStart now)) ⟨0, 0, [], []⟩

/-- An entry of `top_blogs`/`top_projects` (lines 70 and 76):
`{'id': k, 'title': v['title'], 'views': v['count']}`. -/
structure TopEntry where
  id : String
  title : String
  views : Nat
deriving DecidableEq

/-- Conversion of an accumulated dict into the entry list of lines 70/76,
in dict (insertion) order. -/
def entriesOf (l : List (String × Nat × String)) : List TopEntry :=
  l.map (fun p => ⟨p.1, p.2.2, p.2.1⟩)

/-- Sort order of lines 69-73: `key=lambda x: x['views'], reverse=True`.
`viewsGe a b` says `a` may come before `b`: its views are at least `b`'s. -/
def viewsGe (a b : TopEntry) : Prop := b.views ≤ a.views

instance : DecidableRel viewsGe := fun a b => Nat.decLe b.views a.views

/-- Ranking of lines 69-73/75-79 before truncation: Python `sorted` is a
stable sort, and with `reverse=True` elements of equal key keep their
original relative order; `List.insertionSort viewsGe` is such a stable
sort. -/
def rankEntries (l : List (String × Nat × String)) : List TopEntry :=
  List.insertionSort viewsGe (entriesOf l)

/-- The summary document of lines 82-91.  The two `datetime.now()` calls
of the function (lines 30 and 88) are modelled by the single instant
`now`; `period_month` keeps the `(year, month)` data of
`month_start.strftime('%Y-%m')`. -/
structure Summary where
  total_views : Nat
  monthly_views : Nat
  yearly_views : Nat
  top_blogs : List TopEntry
  top_projects : List TopEntry
  last_updated : PyDateTime
  period_month : Int × Nat
  period_year : Int
deriving DecidableEq

/-- The computation inside the `try` of `aggregate_analytics`
(lines 17-96) given the fetched events: counters, thresholds, loop,
top-5 rankings and the summary document.  `total_views` is
`len(all_analytics)` (line 21). -/
def computeSummary (fromiso : String → Option PyDateTime) (now : PyDateTime)
    (events : List ViewEvent) : Summary :=
  let st := aggLoop fromiso now events
  { total_views := events.length
    monthly_views := st.monthly
    yearly_views := st.yearly
    top_blogs := (rankEntries st.blogs).take 5
    top_projects := (rankEntries st.projects).take 5
    last_updated := now
    period_month := (now.year, now.month)
    period_year := (yearStart now).year }

/-- Embedding of `aggregate_analytics` (lines 8-100): `None` when the
database handle is unavailable (lines 13-14); otherwise the fetch of
line 18 (`scan`) and the write of line 94 (`persist`) may raise, and any
exception inside the `try` is caught and turned into `None`
(lines 98-100); on success the summary is returned. -/
def aggregate_analytics (dbPresent : Bool)
    (scan : Except String (List ViewEvent))
    (persist : Summary → Except String Unit)
    (fromiso : String → Option PyDateTime) (now : PyDateTime) :
    Option Summary :=
  if dbPresent = false then none
  else
    match scan with
    | .error _ => none
    | .ok events =>
      let summary := computeSummary fromiso now events
      match persist summary with
      | .error _ => none
      | .ok _ => some summary

/-!
Vocabulary for stating properties of the aggregation loop.
-/

/-- Lookup in an accumulated dict (association list). -/
def lookupItem : List (String × Nat × String) → String → Option (Nat × String)
  | [], _ => none
  | (k', c, t) :: rest, k => if k' = k then some (c, t) else lookupItem rest k

/-- Keys of an accumulated dict, in insertion order. -/
def itemKeys (l : List (String × Nat × String)) : List String :=
  l.map (fun p => p.1)

theorem itemKeys_cons (p : String × Nat × String)
    (l : List (String × Nat × String)) :
    itemKeys (p :: l) = p.1 :: itemKeys l := rfl

/-- Accumulation of one of the two `defaultdict`s in isolation: fold the
events, bumping the dict on those satisfying `q`. -/
def itemFold (q : ViewEvent → Bool) (events : List ViewEvent) :
    List (String × Nat × String) :=
  events.foldl (fun l e => if q e then bumpItem l (keyOf e) (titleOf e) else l) []

/-- Number of events satisfying `q` that carry key `s`. -/
def countForKey (q : ViewEvent → Bool) (events : List ViewEvent) (s : String) :
    Nat :=
  events.countP (fun e => q e && (keyOf e == s))

/-- Title of the last event satisfying `q` that carries key `s`, read the
way line 40 of src/core/analytics_aggregator.py reads it. -/
def lastTitleForKey (q : ViewEvent → Bool) (events : List ViewEvent)
    (s : String) : Option String :=
  ((events.filter (fun e => q e && (keyOf e == s))).map titleOf).getLast?

/-- Keys of the events satisfying `q`, in order of first occurrence. -/
def firstSeenKeys (q : ViewEvent → Bool) (events : List ViewEvent) :
    List String :=
  events.foldl
    (fun acc e =>
      if q e then (if keyOf e ∈ acc then acc else acc ++ [keyOf e]) else acc) []

/-- Monthly-count test of lines 54-56 for one event. -/
def monthlyPred (fromiso : String → Option PyDateTime) (month_start : PyDateTime)
    (e : ViewEvent) : Bool :=
  match parseTS fromiso e.timestamp with
  | some t => month_start.leB t
  | none => false

/-- Yearly-count test of lines 54 and 57-58 for one event. -/
def yearlyPred (fromiso : String → Option PyDateTime) (year_start : PyDateTime)
    (e : ViewEvent) : Bool :=
  match parseTS fromiso e.timestamp with
  | some t => year_start.leB t
  | none => false

/-!
Step lemmas for the aggregation loop.
-/

/-- A blog event is never a project event. -/
theorem not_project_of_blog {e : ViewEvent} (h : isBlogEvent e = true) :
    isProjectEvent e = false := by
  simp only [isBlogEvent, Bool.and_eq_true, decide_eq_true_eq] at h
  simp [isProjectEvent, h.1]

theorem aggStep_monthly (fromiso : String → Option PyDateTime)
    (ms ys : PyDateTime) (st : AggState) (e : ViewEvent) :
    (aggStep fromiso ms ys st e).monthly =
      st.monthly + (if monthlyPred fromiso ms e then 1 else 0) := by
  unfold aggStep monthlyPred
  cases parseTS fromiso e.timestamp <;> dsimp <;> split_ifs <;> rfl

theorem aggStep_yearly (fromiso : String → Option PyDateTime)
    (ms ys : PyDateTime) (st : AggState) (e : ViewEvent) :
    (aggStep fromiso ms ys st e).yearly =
      st.yearly + (if yearlyPred fromiso ys e then 1 else 0) := by
  unfold aggStep yearlyPred
  cases parseTS fromiso e.timestamp <;> dsimp <;> split_ifs <;> rfl

theorem aggStep_blogs (fromiso : String → Option PyDateTime)
    (ms ys : PyDateTime) (st : AggState) (e : ViewEvent) :
    (aggStep fromiso ms ys st e).blogs =
      if isBlogEvent e then bumpItem st.blogs (keyOf e) (titleOf e)
      else st.blogs := by
  unfold aggStep
  cases parseTS fromiso e.timestamp <;> dsimp <;> split_ifs <;> rfl

theorem aggStep_projects (fromiso : String → Option PyDateTime)
    (ms ys : PyDateTime) (st : AggState) (e : ViewEvent) :
    (aggStep fromiso ms ys st e).projects =
      if isProjectEvent e then bumpItem st.projects (keyOf e) (titleOf e)
      else st.projects := by
  unfold aggStep
  by_cases hb : isBlogEvent e
  · rw [not_project_of_blog hb]
    cases parseTS fromiso e.timestamp <;> simp [hb]
  · cases parseTS fromiso e.timestamp <;> simp [hb] <;> split_ifs <;> rfl

/-!
Characterisations of the loop state.
-/

theorem foldl_aggStep_monthly (fromiso : String → Option PyDateTime)
    (ms ys : PyDateTime) :
    ∀ (events : List ViewEvent) (st : AggState),
      (events.foldl (aggStep fromiso ms ys) st).monthly =
        st.monthly + events.countP (monthlyPred fromiso ms)
  | [], st => by simp
  | e :: es, st => by
    rw [List.foldl_cons, foldl_aggStep_monthly fromiso ms ys es,
      aggStep_monthly, List.countP_cons]
    omega

theorem foldl_aggStep_yearly (fromiso : String → Option PyDateTime)
    (ms ys : PyDateTime) :
    ∀ (events : List ViewEvent) (st : AggState),
      (events.foldl (aggStep fromiso ms ys) st).yearly =
        st.yearly + events.countP (yearlyPred fromiso ys)
  | [], st => by simp
  | e :: es, st => by
    rw [List.foldl_cons, foldl_aggStep_yearly fromiso ms ys es,
      aggStep_yearly, List.countP_cons]
    omega

theorem aggLoop_monthly (fromiso : String → Option PyDateTime)
    (now : PyDateTime) (events : List ViewEvent) :
    (aggLoop fromiso now events).monthly =
      events.countP (monthlyPred fromiso (monthStart now)) := by
  rw [aggLoop, foldl_aggStep_monthly]
  simp

theorem aggLoop_yearly (fromiso : String → Option PyDateTime)
    (now : PyDateTime) (events : List ViewEvent) :
    (aggLoop fromiso now events).yearly =
      events.countP (yearlyPred fromiso (yearStart now)) := by
  rw [aggLoop, foldl_aggStep_yearly]
  simp

theorem foldl_aggStep_blogs (fromiso : String → Option PyDateTime)
    (ms ys : PyDateTime) :
    ∀ (events : List ViewEvent) (st : AggState),
      (events.foldl (aggStep fromiso ms ys) st).blogs =
        events.foldl
          (fun l e => if isBlogEvent e then bumpItem l (keyOf e) (titleOf e) else l)
          st.blogs
  | [], _ => rfl
  | e :: es, st => by
    rw [List.foldl_cons, List.foldl_cons, foldl_aggStep_blogs fromiso ms ys es,
      aggStep_blogs]

theorem foldl_aggStep_projects (fromiso : String → Option PyDateTime)
    (ms ys : PyDateTime) :
    ∀ (events : List ViewEvent) (st : AggState),
      (events.foldl (aggStep fromiso ms ys) st).projects =
        events.foldl
          (fun l e =>
            if isProjectEvent e then bumpItem l (keyOf e) (titleOf e) else l)
          st.projects
  | [], _ => rfl
  | e :: es, st => by
    rw [List.foldl_cons, List.foldl_cons, foldl_aggStep_projects fromiso ms ys es,
      aggStep_projects]

theorem aggLoop_blogs (fromiso : String → Option PyDateTime)
    (now : PyDateTime) (events : List ViewEvent) :
    (aggLoop fromiso now events).blogs = itemFold isBlogEvent events := by
  rw [aggLoop, foldl_aggStep_blogs, itemFold]

theorem aggLoop_projects (fromiso : String → Option PyDateTime)
    (now : PyDateTime) (events : List ViewEvent) :
    (aggLoop fromiso now events).projects = itemFold isProjectEvent events := by
  rw [aggLoop, foldl_aggStep_projects, itemFold]

/-!
Lemmas on the accumulated dicts.
-/

theorem lookupItem_bumpItem :
    ∀ (l : List (String × Nat × String)) (k t s : String),
      lookupItem (bumpItem l k t) s =
        if k = s then
          match lookupItem l s with
          | none => some (1, t)
          | some (c, _) => some (c + 1, t)
        else lookupItem l s
  | [], k, t, s => by
    by_cases h : k = s <;> simp [bumpItem, lookupItem, h]
  | (k', c, t') :: rest, k, t, s => by
    by_cases hk : k' = k
    · subst hk
      by_cases hs : k' = s <;> simp [bumpItem, lookupItem, hs]
    · by_cases hs : k' = s
      · subst hs
        have hks : ¬k = k' := fun h => hk h.symm
        simp [bumpItem, lookupItem, hk, hks]
      · simp [bumpItem, lookupItem, hk, hs, lookupItem_bumpItem rest k t s]

theorem itemKeys_bumpItem :
    ∀ (l : List (String × Nat × String)) (k t : String),
      itemKeys (bumpItem l k t) =
        if k ∈ itemKeys l then itemKeys l else itemKeys l ++ [k]
  | [], k, t => by simp [bumpItem, itemKeys]
  | (k', c, t') :: rest, k, t => by
    simp only [bumpItem]
    by_cases hk : k' = k
    · subst hk
      rw [if_pos rfl, itemKeys_cons, itemKeys_cons,
        if_pos (List.mem_cons_self _ _)]
    · rw [if_neg hk, itemKeys_cons, itemKeys_cons, itemKeys_bumpItem rest k t]
      have hne : k ≠ k' := fun h => hk h.symm
      by_cases hmem : k ∈ itemKeys rest
      · rw [if_pos hmem, if_pos (List.mem_cons_of_mem _ hmem)]
      · rw [if_neg hmem, if_neg (by simp [hne, hmem]), List.cons_append]

theorem countForKey_append (q : ViewEvent → Bool) (es : List ViewEvent)
    (e : ViewEvent) (s : String) :
    countForKey q (es ++ [e]) s =
      countForKey q es s + (if q e && (keyOf e == s) then 1 else 0) := by
  simp [countForKey, List.countP_append, List.countP_cons]

theorem lastTitleForKey_append (q : ViewEvent → Bool) (es : List ViewEvent)
    (e : ViewEvent) (s : String) :
    lastTitleForKey q (es ++ [e]) s =
      if q e && (keyOf e == s) then some (titleOf e)
      else lastTitleForKey q es s := by
  unfold lastTitleForKey
  rw [List.filter_append]
  by_cases h : (q e && (keyOf e == s)) = true
  · rw [if_pos h]
    simp only [List.filter_cons, h, if_true, List.filter_nil, List.map_append,
      List.map_cons, List.map_nil, List.getLast?_concat]
  · rw [if_neg h]
    simp [List.filter_cons, h]

theorem itemFold_append (q : ViewEvent → Bool) (es : List ViewEvent)
    (e : ViewEvent) :
    itemFold q (es ++ [e]) =
      if q e then bumpItem (itemFold q es) (keyOf e) (titleOf e)
      else itemFold q es := by
  simp [itemFold, List.foldl_append]

theorem firstSeenKeys_append (q : ViewEvent → Bool) (es : List ViewEvent)
    (e : ViewEvent) :
    firstSeenKeys q (es ++ [e]) =
      if q e then
        (if keyOf e ∈ firstSeenKeys q es then firstSeenKeys q es
         else firstSeenKeys q es ++ [keyOf e])
      else firstSeenKeys q es := by
  simp [firstSeenKeys, List.foldl_append]

theorem countForKey_eq_zero_iff (q : ViewEvent → Bool) (es : List ViewEvent)
    (s : String) :
    countForKey q es s = 0 ↔ lastTitleForKey q es s = none := by
  unfold countForKey lastTitleForKey
  rw [List.countP_eq_length_filter, List.getLast?_eq_none_iff,
    List.map_eq_nil_iff, List.length_eq_zero]

/-- Contents of an accumulated dict after the loop: key `s` maps to the
number of `q`-events carrying `s` together with the title of the last such
event. -/
theorem lookupItem_itemFold (q : ViewEvent → Bool) (events : List ViewEvent)
    (s : String) :
    lookupItem (itemFold q events) s =
      (lastTitleForKey q events s).map (fun t => (countForKey q events s, t)) := by
  induction events using List.reverseRecOn with
  | nil => rfl
  | append_singleton es e ih =>
    rw [itemFold_append, lastTitleForKey_append]
    by_cases hq : q e
    · by_cases hk : keyOf e = s
      · have hpred : (q e && (keyOf e == s)) = true := by simp [hq, hk]
        rw [if_pos hq, if_pos hpred, lookupItem_bumpItem, if_pos hk, ih,
          countForKey_append, hpred, if_pos rfl]
        cases hlt : lastTitleForKey q es s with
        | none =>
          have h0 : countForKey q es s = 0 := (countForKey_eq_zero_iff q es s).mpr hlt
          simp [h0]
        | some t => simp
      · have hpred : (q e && (keyOf e == s)) = false := by simp [hk]
        rw [if_pos hq, if_neg (by simp [hpred]), lookupItem_bumpItem,
          if_neg hk, ih, countForKey_append, hpred]
        simp
    · have hpred : (q e && (keyOf e == s)) = false := by simp [hq]
      rw [if_neg hq, if_neg (by simp [hpred]), ih, countForKey_append, hpred]
      simp

/-- Keys of an accumulated dict after the loop, in first-seen order. -/
theorem itemKeys_itemFold (q : ViewEvent → Bool) (events : List ViewEvent) :
    itemKeys (itemFold q events) = firstSeenKeys q events := by
  induction events using List.reverseRecOn with
  | nil => rfl
  | append_singleton es e ih =>
    rw [itemFold_append, firstSeenKeys_append]
    by_cases hq : q e
    · rw [if_pos hq, if_pos hq, itemKeys_bumpItem, ih]
    · rw [if_neg hq, if_neg hq, ih]

/-- Keys of an accumulated dict are distinct (it models a Python dict). -/
theorem nodup_itemKeys_itemFold (q : ViewEvent → Bool)
    (events : List ViewEvent) : (itemKeys (itemFold q events)).Nodup := by
  induction events using List.reverseRecOn with
  | nil => exact List.nodup_nil
  | append_singleton es e ih =>
    rw [itemFold_append]
    by_cases hq : q e
    · rw [if_pos hq, itemKeys_bumpItem]
      by_cases hmem : keyOf e ∈ itemKeys (itemFold q es)
      · rw [if_pos hmem]; exact ih
      · rw [if_neg hmem]
        simp [List.nodup_append, ih, hmem]
    · rw [if_neg hq]; exact ih

/-- With distinct keys, lookup agrees with membership. -/
theorem lookupItem_eq_some_iff :
    ∀ (l : List (String × Nat × String)), (itemKeys l).Nodup →
      ∀ (k : String) (c : Nat) (t : String),
        (lookupItem l k = some (c, t) ↔ (k, c, t) ∈ l)
  | [], _, k, c, t => by simp [lookupItem]
  | (k', c', t') :: rest, hnd, k, c, t => by
    rw [itemKeys_cons, List.nodup_cons] at hnd
    by_cases hk : k' = k
    · subst hk
      have hnot : (k', c, t) ∉ rest := fun hmem =>
        hnd.1 (List.mem_map_of_mem (fun p => p.1) hmem)
      simp only [lookupItem, if_pos rfl, List.mem_cons]
      constructor
      · intro h
        left
        cases h
        rfl
      · intro h
        rcases h with h | h
        · cases h
          rfl
        · exact absurd h hnot
    · have hne : (k, c, t) ≠ (k', c', t') := by
        intro h
        cases h
        exact hk rfl
      simp only [lookupItem, if_neg hk, List.mem_cons]
      rw [lookupItem_eq_some_iff rest hnd.2 k c t]
      constructor
      · intro h
        exact Or.inr h
      · intro h
        rcases h with h | h
        · exact absurd h hne
        · exact h

/-!
Sorting lemmas for the top-5 rankings.
-/

instance : IsTotal TopEntry viewsGe :=
  ⟨fun a b => (Nat.le_total b.views a.views).imp id id⟩

instance : IsTrans TopEntry viewsGe :=
  ⟨fun _ _ _ h1 h2 => Nat.le_trans h2 h1⟩

/-- The ranking is sorted by views, largest first. -/
theorem rankEntries_sorted (l : List (String × Nat × String)) :
    (rankEntries l).Sorted viewsGe :=
  List.sorted_insertionSort viewsGe (entriesOf l)

/-- The ranking is a permutation of the dict entries. -/
theorem rankEntries_perm (l : List (String × Nat × String)) :
    (rankEntries l).Perm (entriesOf l) :=
  List.perm_insertionSort viewsGe (entriesOf l)

theorem filter_views_orderedInsert (v : Nat) (x : TopEntry) :
    ∀ l : List TopEntry,
      (List.orderedInsert viewsGe x l).filter (fun e => e.views == v) =
        if x.views = v then x :: l.filter (fun e => e.views == v)
        else l.filter (fun e => e.views == v)
  | [] => by
    by_cases hv : x.views = v <;> simp [List.orderedInsert, hv]
  | y :: ys => by
    rw [List.orderedInsert]
    by_cases hr : viewsGe x y
    · rw [if_pos hr]
      by_cases hv : x.views = v <;> simp [List.filter_cons, hv]
    · rw [if_neg hr]
      have hy : x.views < y.views := Nat.lt_of_not_le hr
      by_cases hv : x.views = v
      · have hyv : (y.views == v) = false := by
          simp only [beq_eq_false_iff_ne, ne_eq]
          omega
        simp [List.filter_cons, hyv, filter_views_orderedInsert v x ys, hv]
      · simp [List.filter_cons, filter_views_orderedInsert v x ys, hv]

/-- Stability of the ranking: entries of any fixed view count keep the
relative order they have in the dict. -/
theorem filter_views_rankEntries (l : List (String × Nat × String)) (v : Nat) :
    (rankEntries l).filter (fun e => e.views == v) =
      (entriesOf l).filter (fun e => e.views == v) := by
  unfold rankEntries
  generalize entriesOf l = es
  induction es with
  | nil => rfl
  | cons x xs ih =>
    rw [List.insertionSort, filter_views_orderedInsert]
    by_cases hv : x.views = v <;> simp [List.filter_cons, hv, ih]

/-- Entries of the dict, described elementwise. -/
theorem mem_entriesOf (l : List (String × Nat × String)) (e : TopEntry) :
    e ∈ entriesOf l ↔ (e.id, e.views, e.title) ∈ l := by
  unfold entriesOf
  rw [List.mem_map]
  constructor
  · rintro ⟨p, hp, rfl⟩
    exact hp
  · intro h
    exact ⟨(e.id, e.views, e.title), h, rfl⟩

theorem entriesOf_map_id (l : List (String × Nat × String)) :
    (entriesOf l).map (fun e => e.id) = itemKeys l := by
  unfold entriesOf itemKeys
  rw [List.map_map]
  rfl

/-!
Claim theorems.
-/

/-- Existence of a deduplicating record: some message with the candidate
subject carries a timestamp strictly within the last 24 hours. -/
def RecentAlertExists (msgs : List AlertMessage) (now : Int)
    (subject : String) : Prop :=
  ∃ m ∈ msgs, m.subject = subject ∧
    ∃ t, m.timestamp = some t ∧ now - 24 * usPerHour < t

theorem already_sent_iff (msgs : List AlertMessage) (now : Int)
    (subject : String) :
    ((msgs.filter (fun m => m.subject = subject)).any (fun m =>
        match m.timestamp with
        | some t => decide (now - 24 * usPerHour < t)
        | none => false)) = true ↔ RecentAlertExists msgs now subject := by
  rw [List.any_eq_true]
  constructor
  · rintro ⟨m, hm, hp⟩
    rw [List.mem_filter] at hm
    refine ⟨m, hm.1, by simpa using hm.2, ?_⟩
    cases hts : m.timestamp with
    | none => rw [hts] at hp; simp at hp
    | some t =>
      rw [hts] at hp
      exact ⟨t, rfl, by simpa using hp⟩
  · rintro ⟨m, hm, hsub, t, hts, hlt⟩
    refine ⟨m, List.mem_filter.mpr ⟨hm, by simp [hsub]⟩, ?_⟩
    rw [hts]
    simpa using hlt

/-- C1: on each health-cycle alert candidate with subject `s`, if the
messages collection already holds a record with subject exactly `s` and a
timestamp strictly later than `now - 24h`, nothing is inserted and no push
is sent; otherwise exactly one message with subject `s` is appended and
one push notification is sent. -/
theorem alert_dedup_24h (msgs : List AlertMessage) (now : Int)
    (subject msg alert_type : String) :
    (RecentAlertExists msgs now subject →
      raiseDedupAlert msgs now subject msg alert_type = (msgs, false))
    ∧ (¬RecentAlertExists msgs now subject →
      raiseDedupAlert msgs now subject msg alert_type =
        (msgs ++ [mkAlertMessage subject msg now alert_type], true)
      ∧ (mkAlertMessage subject msg now alert_type).subject = subject) := by
  constructor
  · intro h
    unfold raiseDedupAlert
    rw [if_pos ((already_sent_iff msgs now subject).mpr h)]
  · intro h
    refine ⟨?_, rfl⟩
    unfold raiseDedupAlert
    rw [if_neg (fun hb => h ((already_sent_iff msgs now subject).mp hb))]

theorem alert_dedup_24h_witness :
    (RecentAlertExists [mkAlertMessage "🚨 Outage: X" "m" 0 "critical"]
        (23 * usPerHour) "🚨 Outage: X" ∧
      raiseDedupAlert [mkAlertMessage "🚨 Outage: X" "m" 0 "critical"]
        (23 * usPerHour) "🚨 Outage: X" "m2" "critical" =
        ([mkAlertMessage "🚨 Outage: X" "m" 0 "critical"], false))
    ∧ (¬RecentAlertExists [mkAlertMessage "🚨 Outage: X" "m" 0 "critical"]
        (25 * usPerHour) "🚨 Outage: X" ∧
      raiseDedupAlert [mkAlertMessage "🚨 Outage: X" "m" 0 "critical"]
        (25 * usPerHour) "🚨 Outage: X" "m2" "critical" =
        ([mkAlertMessage "🚨 Outage: X" "m" 0 "critical",
          mkAlertMessage "🚨 Outage: X" "m2" (25 * usPerHour) "critical"], true)) := by
  have h1 : RecentAlertExists [mkAlertMessage "🚨 Outage: X" "m" 0 "critical"]
      (23 * usPerHour) "🚨 Outage: X" :=
    ⟨mkAlertMessage "🚨 Outage: X" "m" 0 "critical", by simp, rfl,
      0, rfl, by decide⟩
  have h2 : ¬RecentAlertExists [mkAlertMessage "🚨 Outage: X" "m" 0 "critical"]
      (25 * usPerHour) "🚨 Outage: X" := by
    rintro ⟨m, hm, hsub, t, hts, hlt⟩
    simp only [List.mem_singleton] at hm
    subst hm
    cases hts
    revert hlt
    decide
  refine ⟨⟨h1, ?_⟩, ⟨h2, ?_⟩⟩
  · exact (alert_dedup_24h [mkAlertMessage "🚨 Outage: X" "m" 0 "critical"]
      (23 * usPerHour) "🚨 Outage: X" "m2" "critical").1 h1
  · exact ((alert_dedup_24h [mkAlertMessage "🚨 Outage: X" "m" 0 "critical"]
      (25 * usPerHour) "🚨 Outage: X" "m2" "critical").2 h2).1

/-- C3: for a parsed domain expiry with `d = days_remaining`, the expiry
cycle raises no alert when `d > 30`, a `warning` alert when `7 < d ≤ 30`,
and a `critical` alert when `d ≤ 7`. -/
theorem domain_alert_thresholds (days : Int) :
    (30 < days → domainAlertType days = none)
    ∧ (7 < days → days ≤ 30 → domainAlertType days = some "warning")
    ∧ (days ≤ 7 → domainAlertType days = some "critical") := by
  unfold domainAlertType
  refine ⟨fun h => ?_, fun h1 h2 => ?_, fun h => ?_⟩
  · rw [if_neg (by omega)]
  · rw [if_pos h2, if_neg (by omega)]
  · rw [if_pos (by omega), if_pos h]

theorem domain_alert_thresholds_witness :
    domainAlertType 31 = none ∧ domainAlertType 30 = some "warning"
    ∧ domainAlertType 8 = some "warning" ∧ domainAlertType 7 = some "critical"
    ∧ domainAlertType 1 = some "critical" :=
  ⟨(domain_alert_thresholds 31).1 (by decide),
   (domain_alert_thresholds 30).2.1 (by decide) (by decide),
   (domain_alert_thresholds 8).2.1 (by decide) (by decide),
   (domain_alert_thresholds 7).2.2 (by decide),
   (domain_alert_thresholds 1).2.2 (by decide)⟩

theorem daysRemaining_eq_div (expiry now : Int) :
    daysRemaining expiry now = (expiry - now) / usPerDay + 1 := rfl

/-- C4 counterexample: for a domain expiring on the current calendar date
(midnight at instant 0) observed at noon (12h after midnight, so `now` is
within the expiry date), `days_remaining` evaluates to 0, not 1. -/
theorem days_remaining_today_counterexample :
    (0 : Int) ≤ 43200000000 ∧ (43200000000 : Int) < 0 + usPerDay
    ∧ daysRemaining 0 43200000000 = 0
    ∧ daysRemaining 0 43200000000 ≠ 1 := by
  refine ⟨by decide, by decide, by decide, by decide⟩

/-- C4 amended: `days_remaining` is `(expiry_date − now).days + 1`, where
`.days` floors; the `+1` makes the result the ceiling of the fractional
day difference, so for a domain whose `expiry_date` is the current
calendar date (`expiry ≤ now < expiry + 1 day`) the value is 1 exactly at
midnight (`now = expiry`) and 0 at every later instant of that date. -/
theorem days_remaining_today (expiry now : Int) (h1 : expiry ≤ now)
    (h2 : now < expiry + usPerDay) :
    daysRemaining expiry now = if now = expiry then 1 else 0 := by
  rw [daysRemaining_eq_div]
  unfold usPerDay at *
  split_ifs with h
  · subst h
    omega
  · omega

theorem days_remaining_today_witness :
    ((0 : Int) ≤ 0 ∧ (0 : Int) < 0 + usPerDay ∧ daysRemaining 0 0 = 1)
    ∧ ((0 : Int) ≤ 1 ∧ (1 : Int) < 0 + usPerDay ∧ daysRemaining 0 1 = 0) := by
  refine ⟨⟨by decide, by decide, ?_⟩, ⟨by decide, by decide, ?_⟩⟩
  · have h := days_remaining_today 0 0 (by decide) (by decide)
    simpa using h
  · have h := days_remaining_today 0 1 (by decide) (by decide)
    simpa using h

theorem deploymentStatus_online_iff (resp : Except Unit Nat) :
    deploymentStatus resp = "online" ↔ ∃ code, resp = .ok code ∧ code < 400 := by
  cases resp with
  | error e =>
    simp only [deploymentStatus]
    constructor
    · intro h
      exact absurd h (by decide)
    · rintro ⟨code, hcode, _⟩
      cases hcode
  | ok code =>
    simp only [deploymentStatus]
    by_cases h : code < 400
    · rw [if_pos h]
      exact ⟨fun _ => ⟨code, rfl, h⟩, fun _ => rfl⟩
    · rw [if_neg h]
      constructor
      · intro habs
        exact absurd habs (by decide)
      · rintro ⟨c, hc, hlt⟩
        cases hc
        exact absurd hlt h

theorem deploymentStatus_cases (resp : Except Unit Nat) :
    deploymentStatus resp = "online" ∨ deploymentStatus resp = "offline" := by
  cases resp with
  | error e => exact Or.inr rfl
  | ok code =>
    simp only [deploymentStatus]
    split_ifs
    · exact Or.inl rfl
    · exact Or.inr rfl

/-- C8: one deployment check classifies `online` exactly when the HEAD
request on the (scheme-normalised) URL yields a status code below 400 and
`offline` otherwise, always writes `{last_status, last_check = now}` onto
the record, and enters the dedup-alert path (subject derived from the
endpoint name) exactly when the new status is `offline`. -/
theorem deployment_check (rec : VaultRecord) (head : String → Except Unit Nat)
    (now : Int) (msgs : List AlertMessage) :
    (deploymentStatus (head (resolveUrl rec.url)) = "online" ↔
      ∃ code, head (resolveUrl rec.url) = .ok code ∧ code < 400)
    ∧ (deploymentStatus (head (resolveUrl rec.url)) = "online" ∨
       deploymentStatus (head (resolveUrl rec.url)) = "offline")
    ∧ (checkDeploymentRecord rec head now msgs).1.last_check = some now
    ∧ (checkDeploymentRecord rec head now msgs).1.last_status =
        some (deploymentStatus (head (resolveUrl rec.url)))
    ∧ (deploymentStatus (head (resolveUrl rec.url)) ≠ "offline" →
        (checkDeploymentRecord rec head now msgs).2 = (msgs, false))
    ∧ (deploymentStatus (head (resolveUrl rec.url)) = "offline" →
        (checkDeploymentRecord rec head now msgs).2 =
          raiseDedupAlert msgs now ("🚨 Outage: " ++ rec.name.getD "None")
            ("Unreachable: " ++ resolveUrl rec.url) "critical") := by
  refine ⟨deploymentStatus_online_iff _, deploymentStatus_cases _, ?_, ?_, ?_, ?_⟩
  · simp only [checkDeploymentRecord]
    split_ifs <;> rfl
  · simp only [checkDeploymentRecord]
    split_ifs <;> rfl
  · intro h
    simp only [checkDeploymentRecord]
    rw [if_neg h]
  · intro h
    simp only [checkDeploymentRecord]
    rw [if_pos h]

theorem deployment_check_witness :
    (deploymentStatus ((fun _ => Except.error ()) (resolveUrl "example.com")) =
      "offline")
    ∧ (checkDeploymentRecord ⟨"example.com", some "X", none, none⟩
        (fun _ => Except.error ()) 0 []).2 =
      raiseDedupAlert [] 0 "🚨 Outage: X"
        ("Unreachable: " ++ resolveUrl "example.com") "critical" := by
  refine ⟨rfl, ?_⟩
  have h := (deployment_check ⟨"example.com", some "X", none, none⟩
    (fun _ => Except.error ()) 0 []).2.2.2.2.2 rfl
  simpa using h

/-- C2: with the database available and the cached document read without
error, `get_analytics_summary` returns the persisted summary unchanged
exactly when it exists, its `last_updated` is usable, and its age is
strictly below 5 minutes; in every other case (no persisted summary,
unusable `last_updated`, or age of 5 minutes or more) it returns the
result of `aggregate_analytics()`. -/
theorem summary_freshness {α : Type} (cache : Option α)
    (lastUpdatedOf : α → StoredTime) (fromiso : String → Option Int)
    (now : Int) (aggRes : Option α) :
    (∀ (s : α) (t : Int), cache = some s →
        parseStoredTime fromiso (lastUpdatedOf s) = some t →
        (now - t < 5 * usPerMinute →
          get_analytics_summary true (.ok cache) lastUpdatedOf fromiso now aggRes
            = some s)
        ∧ (5 * usPerMinute ≤ now - t →
          get_analytics_summary true (.ok cache) lastUpdatedOf fromiso now aggRes
            = aggRes))
    ∧ (cache = none →
        get_analytics_summary true (.ok cache) lastUpdatedOf fromiso now aggRes
          = aggRes)
    ∧ (∀ s : α, cache = some s →
        parseStoredTime fromiso (lastUpdatedOf s) = none →
        get_analytics_summary true (.ok cache) lastUpdatedOf fromiso now aggRes
          = aggRes) := by
  refine ⟨?_, ?_, ?_⟩
  · rintro s t rfl hparse
    simp only [get_analytics_summary, hparse]
    constructor
    · intro hfresh
      rw [if_pos hfresh]
      rfl
    · intro hstale
      rw [if_neg (not_lt.mpr hstale)]
      rfl
  · rintro rfl
    rfl
  · rintro s rfl hparse
    simp only [get_analytics_summary, hparse]
    rfl

theorem summary_freshness_witness :
    (get_analytics_summary true (.ok (some 7)) (fun _ => StoredTime.dt 0)
        (fun _ => none) 299999999 (some 3) = some 7)
    ∧ (get_analytics_summary true (.ok (some 7)) (fun _ => StoredTime.dt 0)
        (fun _ => none) 300000001 (some 3) = some 3)
    ∧ (get_analytics_summary true (.ok (none : Option Nat))
        (fun _ => StoredTime.dt 0) (fun _ => none) 0 (some 3) = some 3)
    ∧ (get_analytics_summary true (.ok (some 7))
        (fun _ => StoredTime.str "bad") (fun _ => none) 0 (some 3) = some 3) :=
  ⟨((summary_freshness (some 7) (fun _ => StoredTime.dt 0) (fun _ => none)
      299999999 (some 3)).1 7 0 rfl rfl).1 (by decide),
   ((summary_freshness (some 7) (fun _ => StoredTime.dt 0) (fun _ => none)
      300000001 (some 3)).1 7 0 rfl rfl).2 (by decide),
   (summary_freshness (none : Option Nat) (fun _ => StoredTime.dt 0)
      (fun _ => none) 0 (some 3)).2.1 rfl,
   (summary_freshness (some 7) (fun _ => StoredTime.str "bad") (fun _ => none)
      0 (some 3)).2.2 7 rfl rfl⟩

/-- C10: an exception while reading or validating the cached summary makes
`get_analytics_summary` fall back to `aggregate_analytics()` (it does not
return `None` directly), so with the database available the function
returns `None` only when the aggregation result itself is `None`. -/
theorem summary_error_fallback {α : Type} (dbPresent : Bool)
    (readDoc : Except String (Option α)) (lastUpdatedOf : α → StoredTime)
    (fromiso : String → Option Int) (now : Int) (aggRes : Option α) :
    (∀ msg : String, readDoc = .error msg →
        get_analytics_summary true readDoc lastUpdatedOf fromiso now aggRes
          = aggRes)
    ∧ (get_analytics_summary dbPresent readDoc lastUpdatedOf fromiso now aggRes
          = none →
        dbPresent = false ∨ aggRes = none) := by
  constructor
  · rintro msg rfl
    rfl
  · intro h
    cases dbPresent with
    | false => exact Or.inl rfl
    | true =>
      refine Or.inr ?_
      rcases readDoc with msg | c
      · simpa [get_analytics_summary] using h
      · rcases c with _ | s
        · simpa [get_analytics_summary] using h
        · rcases hp : parseStoredTime fromiso (lastUpdatedOf s) with _ | t
          · simpa [get_analytics_summary, hp] using h
          · simp only [get_analytics_summary, hp] at h
            by_cases hfresh : now - t < 5 * usPerMinute
            · rw [if_pos hfresh] at h
              cases h
            · rwa [if_neg hfresh] at h

theorem summary_error_fallback_witness :
    get_analytics_summary true (.error "boom" : Except String (Option Nat))
      (fun _ => StoredTime.missing) (fun _ => none) 0 (some 5) = some 5 :=
  (summary_error_fallback true (.error "boom") (fun _ => StoredTime.missing)
    (fun _ => none) 0 (some 5)).1 "boom" rfl

theorem computeSummary_total (fromiso : String → Option PyDateTime)
    (now : PyDateTime) (events : List ViewEvent) :
    (computeSummary fromiso now events).total_views = events.length := rfl

theorem computeSummary_monthly (fromiso : String → Option PyDateTime)
    (now : PyDateTime) (events : List ViewEvent) :
    (computeSummary fromiso now events).monthly_views =
      events.countP (monthlyPred fromiso (monthStart now)) := by
  simp only [computeSummary]
  exact aggLoop_monthly fromiso now events

theorem computeSummary_yearly (fromiso : String → Option PyDateTime)
    (now : PyDateTime) (events : List ViewEvent) :
    (computeSummary fromiso now events).yearly_views =
      events.countP (yearlyPred fromiso (yearStart now)) := by
  simp only [computeSummary]
  exact aggLoop_yearly fromiso now events

theorem computeSummary_top_blogs (fromiso : String → Option PyDateTime)
    (now : PyDateTime) (events : List ViewEvent) :
    (computeSummary fromiso now events).top_blogs =
      (rankEntries (itemFold isBlogEvent events)).take 5 := by
  simp only [computeSummary]
  rw [aggLoop_blogs]

theorem computeSummary_top_projects (fromiso : String → Option PyDateTime)
    (now : PyDateTime) (events : List ViewEvent) :
    (computeSummary fromiso now events).top_projects =
      (rankEntries (itemFold isProjectEvent events)).take 5 := by
  simp only [computeSummary]
  rw [aggLoop_projects]

/-- C7: `aggregate_analytics` returns `None` exactly when the database
handle is unavailable, the scan raises, or the persist step raises (any
exception inside the `try` is caught); it never propagates a failure. -/
theorem aggregate_failure_none (dbPresent : Bool)
    (scan : Except String (List ViewEvent))
    (persist : Summary → Except String Unit)
    (fromiso : String → Option PyDateTime) (now : PyDateTime) :
    aggregate_analytics dbPresent scan persist fromiso now = none ↔
      dbPresent = false ∨ (∃ e, scan = .error e) ∨
        ∃ events e, scan = .ok events ∧
          persist (computeSummary fromiso now events) = .error e := by
  cases dbPresent
  · simp [aggregate_analytics]
  · rcases scan with e | events
    · simp [aggregate_analytics]
    · rcases hp : persist (computeSummary fromiso now events) with e | u
      · simp [aggregate_analytics, hp]
      · simp [aggregate_analytics, hp]

/-- C6: a ViewEvent whose timestamp is a string that fails to parse still
counts in `total_views` (which always equals the number of scanned events)
but contributes to neither `monthly_views` nor `yearly_views`. -/
theorem unparsable_timestamp_views (fromiso : String → Option PyDateTime)
    (now : PyDateTime) (l₁ l₂ : List ViewEvent) (e : ViewEvent) (s : String)
    (hts : e.timestamp = TSVal.str s) (hbad : fromiso s = none) :
    (computeSummary fromiso now (l₁ ++ e :: l₂)).total_views =
      (l₁ ++ e :: l₂).length
    ∧ (computeSummary fromiso now (l₁ ++ e :: l₂)).monthly_views =
      (computeSummary fromiso now (l₁ ++ l₂)).monthly_views
    ∧ (computeSummary fromiso now (l₁ ++ e :: l₂)).yearly_views =
      (computeSummary fromiso now (l₁ ++ l₂)).yearly_views := by
  have hm : monthlyPred fromiso (monthStart now) e = false := by
    simp [monthlyPred, parseTS, hts, hbad]
  have hy : yearlyPred fromiso (yearStart now) e = false := by
    simp [yearlyPred, parseTS, hts, hbad]
  refine ⟨rfl, ?_, ?_⟩
  · rw [computeSummary_monthly, computeSummary_monthly]
    simp [List.countP_append, List.countP_cons, hm]
  · rw [computeSummary_yearly, computeSummary_yearly]
    simp [List.countP_append, List.countP_cons, hy]

theorem unparsable_timestamp_views_witness :
    (computeSummary (fun _ => none) ⟨2026, 10, 12, 0, 0, 0, 0⟩
        [⟨TSVal.str "bad", none, none, none⟩]).total_views = 1
    ∧ (computeSummary (fun _ => none) ⟨2026, 10, 12, 0, 0, 0, 0⟩
        [⟨TSVal.str "bad", none, none, none⟩]).monthly_views = 0
    ∧ (computeSummary (fun _ => none) ⟨2026, 10, 12, 0, 0, 0, 0⟩
        [⟨TSVal.str "bad", none, none, none⟩]).yearly_views = 0 := by
  have h := unparsable_timestamp_views (fun _ => none) ⟨2026, 10, 12, 0, 0, 0, 0⟩
    [] [] ⟨TSVal.str "bad", none, none, none⟩ "bad" rfl rfl
  exact ⟨h.1, h.2.1, h.2.2⟩

theorem yearStart_leB_monthStart (now : PyDateTime) (hm : 1 ≤ now.month) :
    (yearStart now).leB (monthStart now) = true := by
  rw [PyDateTime.leB_iff]
  unfold PyDateTime.lexLe yearStart monthStart
  dsimp only
  omega

/-- C9: every summary satisfies `monthly_views ≤ yearly_views ≤
total_views`: the month threshold is never earlier than the year threshold
of the same `now`, so monthly-counted events are yearly-counted, and each
yearly-counted event is one scanned event. -/
theorem monthly_le_yearly_le_total (fromiso : String → Option PyDateTime)
    (now : PyDateTime) (events : List ViewEvent) (hm : 1 ≤ now.month) :
    (computeSummary fromiso now events).monthly_views ≤
      (computeSummary fromiso now events).yearly_views
    ∧ (computeSummary fromiso now events).yearly_views ≤
      (computeSummary fromiso now events).total_views := by
  rw [computeSummary_monthly, computeSummary_yearly, computeSummary_total]
  constructor
  · apply List.countP_mono_left
    intro e _ hp
    unfold monthlyPred at hp
    unfold yearlyPred
    cases hpt : parseTS fromiso e.timestamp with
    | none => rw [hpt] at hp; simp at hp
    | some t =>
      rw [hpt] at hp
      dsimp only at hp ⊢
      exact PyDateTime.leB_trans (yearStart_leB_monthStart now hm) hp
  · exact List.countP_le_length _

theorem monthly_le_yearly_le_total_witness :
    (computeSummary (fun _ => none) ⟨2026, 10, 12, 0, 0, 0, 0⟩
        [⟨TSVal.dt ⟨2026, 10, 1, 0, 0, 0, 0⟩, none, none, none⟩]).monthly_views ≤
      (computeSummary (fun _ => none) ⟨2026, 10, 12, 0, 0, 0, 0⟩
        [⟨TSVal.dt ⟨2026, 10, 1, 0, 0, 0, 0⟩, none, none, none⟩]).yearly_views
    ∧ (computeSummary (fun _ => none) ⟨2026, 10, 12, 0, 0, 0, 0⟩
        [⟨TSVal.dt ⟨2026, 10, 1, 0, 0, 0, 0⟩, none, none, none⟩]).yearly_views ≤
      (computeSummary (fun _ => none) ⟨2026, 10, 12, 0, 0, 0, 0⟩
        [⟨TSVal.dt ⟨2026, 10, 1, 0, 0, 0, 0⟩, none, none, none⟩]).total_views :=
  monthly_le_yearly_le_total (fun _ => none) ⟨2026, 10, 12, 0, 0, 0, 0⟩
    [⟨TSVal.dt ⟨2026, 10, 1, 0, 0, 0, 0⟩, none, none, none⟩] (by decide)

theorem lookupItem_isSome_iff :
    ∀ (l : List (String × Nat × String)) (k : String),
      (lookupItem l k).isSome = true ↔ k ∈ itemKeys l
  | [], k => by simp [lookupItem, itemKeys]
  | (k', c, t) :: rest, k => by
    rw [itemKeys_cons]
    by_cases h : k' = k
    · subst h
      simp [lookupItem]
    · have hne : k ≠ k' := fun hh => h hh.symm
      simp only [lookupItem, if_neg h, List.mem_cons]
      rw [lookupItem_isSome_iff rest k]
      constructor
      · exact fun hm => Or.inr hm
      · rintro (hh | hm)
        · exact absurd hh hne
        · exact hm

/-- Formalisation of the claimed shape of one ranking (`top_blogs` or
`top_projects`).  Writing `R` for `rankEntries (itemFold q events)` (the
ranking before truncation) and `E` for `entriesOf (itemFold q events)`
(the dict entries in insertion order): ids appear at most once; an id
appears in `R` exactly when some `q`-event carries it; each entry holds
that id's total `q`-event count and the title of the latest `q`-event for
it; `R` is sorted by views descending; entries of equal views keep their
dict order (stability); and the dict lists ids in first-seen order. -/
def RankingSpec (q : ViewEvent → Bool) (events : List ViewEvent) : Prop :=
  ((rankEntries (itemFold q events)).map (fun e => e.id)).Nodup
  ∧ (∀ s : String,
      (∃ e ∈ rankEntries (itemFold q events), e.id = s) ↔
        0 < countForKey q events s)
  ∧ (∀ e ∈ rankEntries (itemFold q events),
      e.views = countForKey q events e.id ∧
      some e.title = lastTitleForKey q events e.id)
  ∧ (rankEntries (itemFold q events)).Sorted viewsGe
  ∧ (∀ v : Nat,
      (rankEntries (itemFold q events)).filter (fun e => e.views == v) =
        (entriesOf (itemFold q events)).filter (fun e => e.views == v))
  ∧ (entriesOf (itemFold q events)).map (fun e => e.id) =
      firstSeenKeys q events

theorem mem_rankEntries_id_iff (q : ViewEvent → Bool)
    (events : List ViewEvent) (s : String) :
    (∃ e ∈ rankEntries (itemFold q events), e.id = s) ↔
      0 < countForKey q events s := by
  have hmem : (∃ e ∈ rankEntries (itemFold q events), e.id = s) ↔
      s ∈ itemKeys (itemFold q events) := by
    unfold rankEntries
    constructor
    · rintro ⟨e, he, rfl⟩
      rw [List.mem_insertionSort] at he
      rcases List.mem_map.mp he with ⟨p, hp, hgp⟩
      rw [← hgp]
      exact List.mem_map_of_mem (fun p => p.1) hp
    · intro hs
      rcases List.mem_map.mp hs with ⟨p, hp, hps⟩
      refine ⟨⟨p.1, p.2.2, p.2.1⟩, ?_, hps⟩
      rw [List.mem_insertionSort]
      exact List.mem_map_of_mem _ hp
  rw [hmem, ← lookupItem_isSome_iff, lookupItem_itemFold,
    Nat.pos_iff_ne_zero, Ne, countForKey_eq_zero_iff]
  cases lastTitleForKey q events s <;> simp

theorem rankEntries_entry_values (q : ViewEvent → Bool)
    (events : List ViewEvent) (e : TopEntry)
    (he : e ∈ rankEntries (itemFold q events)) :
    e.views = countForKey q events e.id ∧
      some e.title = lastTitleForKey q events e.id := by
  rw [rankEntries, List.mem_insertionSort] at he
  rcases List.mem_map.mp he with ⟨p, hp, hgp⟩
  have hlook : lookupItem (itemFold q events) p.1 = some (p.2.1, p.2.2) :=
    (lookupItem_eq_some_iff (itemFold q events)
      (nodup_itemKeys_itemFold q events) p.1 p.2.1 p.2.2).mpr hp
  rw [lookupItem_itemFold] at hlook
  cases hlt : lastTitleForKey q events p.1 with
  | none => rw [hlt] at hlook; cases hlook
  | some t =>
    rw [hlt] at hlook
    have hlook' : some (countForKey q events p.1, t) = some (p.2.1, p.2.2) := hlook
    have hc : countForKey q events p.1 = p.2.1 :=
      congrArg Prod.fst (Option.some.inj hlook')
    have ht : t = p.2.2 := congrArg Prod.snd (Option.some.inj hlook')
    subst hgp
    exact ⟨hc.symm, by rw [hlt, ht]⟩

theorem rankingSpec_holds (q : ViewEvent → Bool) (events : List ViewEvent) :
    RankingSpec q events := by
  refine ⟨?_, mem_rankEntries_id_iff q events, rankEntries_entry_values q events,
    rankEntries_sorted _, filter_views_rankEntries _, ?_⟩
  · rw [List.Perm.nodup_iff ((rankEntries_perm _).map (fun e => e.id)),
      entriesOf_map_id, itemKeys_itemFold]
    rw [← itemKeys_itemFold]
    exact nodup_itemKeys_itemFold q events
  · rw [entriesOf_map_id, itemKeys_itemFold]

/-- C5 counterexample: an event of item_type `blog` whose `item_id` is
present (non-missing) but the empty string is excluded from the ranking —
line 61 of src/core/analytics_aggregator.py tests Python truthiness, and
`''` is falsy — so `top_blogs` is empty although the claim, as stated,
requires an entry for that id. -/
theorem top_blogs_empty_id_counterexample :
    ((computeSummary (fun _ => none) ⟨2026, 10, 12, 0, 0, 0, 0⟩
        [⟨TSVal.missing, some "blog", some "", some "T"⟩]).top_blogs = [])
    ∧ ([⟨TSVal.missing, some "blog", some "", some "T"⟩] : List ViewEvent).countP
        (fun e => (e.item_type == some "blog") && e.item_id.isSome) = 1 :=
  ⟨rfl, rfl⟩

/-- C5 amended: for every event set, `top_blogs` is the 5-entry prefix of
the ranking of all item ids occurring in at least one event with item_type
`blog` and a non-missing, non-empty `item_id` (events with a missing or
empty id are excluded regardless of type); each ranked entry carries that
id's total event count and latest-seen title; the ranking is sorted by
views descending with ties in first-seen order of the item id (stable
sort); and symmetrically for `top_projects`. -/
theorem top_content_ranking (fromiso : String → Option PyDateTime)
    (now : PyDateTime) (events : List ViewEvent) :
    ((computeSummary fromiso now events).top_blogs =
      (rankEntries (itemFold isBlogEvent events)).take 5)
    ∧ RankingSpec isBlogEvent events
    ∧ ((computeSummary fromiso now events).top_projects =
      (rankEntries (itemFold isProjectEvent events)).take 5)
    ∧ RankingSpec isProjectEvent events :=
  ⟨computeSummary_top_blogs fromiso now events,
   rankingSpec_holds isBlogEvent events,
   computeSummary_top_projects fromiso now events,
   rankingSpec_holds isProjectEvent events⟩

theorem top_content_ranking_witness :
    ((computeSummary (fun _ => none) ⟨2026, 10, 12, 0, 0, 0, 0⟩
        [⟨TSVal.missing, some "blog", some "b1", some "T"⟩]).top_blogs =
      (rankEntries (itemFold isBlogEvent
        [⟨TSVal.missing, some "blog", some "b1", some "T"⟩])).take 5)
    ∧ RankingSpec isBlogEvent [⟨TSVal.missing, some "blog", some "b1", some "T"⟩] :=
  ⟨(top_content_ranking (fun _ => none) ⟨2026, 10, 12, 0, 0, 0, 0⟩
      [⟨TSVal.missing, some "blog", some "b1", some "T"⟩]).1,
   (top_content_ranking (fun _ => none) ⟨2026, 10, 12, 0, 0, 0, 0⟩
      [⟨TSVal.missing, some "blog", some "b1", some "T"⟩]).2.1⟩
